import Mathlib

/-!
Verification of the per-IP rate-limiting layer of the gin-template repository
(`internal/middlewares` rate limiter, `pkg/response`, `internal/routes`).

The registry (`IPRateLimiter`, `GetLimiter`, `CleanupOldLimiters`) and the
middleware glue (`RateLimit`, `AuthRateLimit`, `ErrorResponse`,
`RegisterAPIRoutes`) are embedded from the Go source.  The Go map
`map[string]*rate.Limiter` is embedded as an association list with string
keys; time is embedded as a rational number of seconds and token counts as
rationals, mirroring the float-seconds/float-tokens arithmetic of the
token-bucket library.
-/

set_option autoImplicit false

namespace GinTemplate

/-- Per-IP token-bucket state: current token count and the timestamp (in
seconds) of the last refill.  Modelled from the spec: the bucket itself lives
in the external library `golang.org/x/time/rate` (`rate.Limiter`), which is
not part of this repository's sources; the spec describes it as "refill rate
(tokens/second), burst capacity (max tokens), current token count,
last-refill timestamp" with rate and burst held in the policy. -/
structure TokenBucket where
  tokens : ℚ
  lastRefill : ℚ
  deriving DecidableEq

/-- Immutable rate-limit policy: refill rate (tokens per second) and burst
capacity, as in `NewIPRateLimiter(rps rate.Limit, burst int)`. -/
structure RateLimitPolicy where
  refillRate : ℚ
  burst : ℕ
  deriving DecidableEq

/-- Modelled from the spec: the admission step of the external library's
`rate.Limiter.Allow` (not in the repository sources).  Per the spec: "refills
the bucket proportionally to elapsed time since last check (tokens added =
elapsed_seconds × refill_rate, capped at burst capacity), then, if at least
one token is available, deducts one token and returns true (admit); otherwise
returns false (reject) and leaves the bucket unchanged."  `refillTokens` is
the lazy refill (the library caps with an explicit comparison against the
burst, written here the same way); `allowBucket` is the whole admission
step. -/
def refillTokens (p : RateLimitPolicy) (b : TokenBucket) (now : ℚ) : ℚ :=
  if ((p.burst : ℚ)) < b.tokens + (now - b.lastRefill) * p.refillRate then ((p.burst : ℚ))
  else b.tokens + (now - b.lastRefill) * p.refillRate

def allowBucket (p : RateLimitPolicy) (b : TokenBucket) (now : ℚ) : Bool × TokenBucket :=
  if 1 ≤ refillTokens p b now then
    (true, { tokens := refillTokens p b now - 1, lastRefill := now })
  else
    (false, b)

theorem refillTokens_eq_min (p : RateLimitPolicy) (b : TokenBucket) (now : ℚ) :
    refillTokens p b now
      = min ((p.burst : ℚ)) (b.tokens + (now - b.lastRefill) * p.refillRate) := by
  unfold refillTokens
  rcases lt_or_le ((p.burst : ℚ)) (b.tokens + (now - b.lastRefill) * p.refillRate) with h | h
  · rw [if_pos h, min_eq_left h.le]
  · rw [if_neg (not_lt.mpr h), min_eq_right h]

/-- The `limiters map[string]*rate.Limiter` field of `IPRateLimiter`,
embedded as an association list from IP strings to buckets (Go map iteration
order is arbitrary; the list order stands in for it). -/
abbrev LimiterMap := List (String × TokenBucket)

/-- Go map indexing `rl.limiters[ip]`: the value stored under `ip`, if any. -/
def lookupBucket : LimiterMap → String → Option TokenBucket
  | [], _ => none
  | (k, v) :: rest, ip => if k = ip then some v else lookupBucket rest ip

/-- Go map assignment `rl.limiters[ip] = b` for a key already present
(the in-place mutation performed through the `*rate.Limiter` pointer by
`limiter.Allow()`): replaces the entry stored under `ip`. -/
def updateEntry : LimiterMap → String → TokenBucket → LimiterMap
  | [], _, _ => []
  | (k, v) :: rest, ip, b => if k = ip then (k, b) :: rest else (k, v) :: updateEntry rest ip b

/-- Source `IPRateLimiter`: the per-IP limiter registry together
with its policy fields `rate` and `burst` (the `sync.RWMutex` guards the map
against concurrent access and has no sequential content). -/
structure IPRateLimiter where
  limiters : LimiterMap
  rate : ℚ
  burst : ℕ
  deriving DecidableEq

/-- Source `NewIPRateLimiter`: empty registry with the given
policy. -/
def NewIPRateLimiter (rps : ℚ) (burst : ℕ) : IPRateLimiter :=
  { limiters := [], rate := rps, burst := burst }

/-- Source `GetLimiter`: return the existing bucket for `ip`, or
create one under the registry's policy and store it.  `rate.NewLimiter`
yields a bucket whose first check sees a full burst allowance; per the spec
("creates one initialized to full burst capacity") the fresh bucket is
embedded as full at creation time `now`. -/
def GetLimiter (rl : IPRateLimiter) (ip : String) (now : ℚ) : TokenBucket × IPRateLimiter :=
  match lookupBucket rl.limiters ip with
  | some limiter => (limiter, rl)
  | none =>
      ({ tokens := (rl.burst : ℚ), lastRefill := now },
       { rl with limiters := (ip, { tokens := (rl.burst : ℚ), lastRefill := now }) :: rl.limiters })

/-- Source `CleanupOldLimiters`: when the registry holds more than
1000 entries, iterate over the map deleting entries until the counter
exceeds 500 (the guard `count > 500` is checked before each delete and the
counter is incremented after it, so 501 entries are deleted); otherwise do
nothing. -/
def CleanupOldLimiters (rl : IPRateLimiter) : IPRateLimiter :=
  if rl.limiters.length > 1000 then
    { rl with limiters := rl.limiters.drop 501 }
  else
    rl

/-- The per-request admission step of the `RateLimit` middleware family:
`GetLimiter(ip)` followed by `limiter.Allow()`, with the bucket mutation
written back through the map (in Go the bucket is mutated in place via the
`*rate.Limiter` pointer stored in the map). -/
def allowIP (rl : IPRateLimiter) (ip : String) (now : ℚ) : Bool × IPRateLimiter :=
  let got := GetLimiter rl ip now
  let step := allowBucket { refillRate := rl.rate, burst := rl.burst } got.1 now
  (step.1, { got.2 with limiters := updateEntry got.2.limiters ip step.2 })

/-- Outcomes of `n` consecutive admission checks for one IP, all at the same
instant `now` (the registry is threaded through the calls). -/
def allowRun : IPRateLimiter → String → ℚ → ℕ → List Bool
  | _, _, _, 0 => []
  | rl, ip, now, n + 1 => (allowIP rl ip now).1 :: allowRun (allowIP rl ip now).2 ip now n

/-! ### Association-list lemmas for the registry map -/

theorem lookupBucket_updateEntry_ne {l : LimiterMap} {ip q : String} (b : TokenBucket)
    (h : q ≠ ip) : lookupBucket (updateEntry l ip b) q = lookupBucket l q := by
  induction l with
  | nil => rfl
  | cons e rest ih =>
      obtain ⟨k, v⟩ := e
      by_cases hk : k = ip
      · subst hk
        have hkq : k ≠ q := fun hh => h hh.symm
        simp [updateEntry, lookupBucket, hkq]
      · simp only [updateEntry, if_neg hk, lookupBucket]
        by_cases hq : k = q
        · simp [hq]
        · simp [hq, ih]

theorem lookupBucket_updateEntry_self {l : LimiterMap} {ip : String} {v : TokenBucket}
    (b : TokenBucket) (h : lookupBucket l ip = some v) :
    lookupBucket (updateEntry l ip b) ip = some b := by
  induction l with
  | nil => simp [lookupBucket] at h
  | cons e rest ih =>
      obtain ⟨k, v'⟩ := e
      by_cases hk : k = ip
      · simp [updateEntry, if_pos hk, lookupBucket, hk]
      · simp only [lookupBucket, if_neg hk] at h
        simp [updateEntry, if_neg hk, lookupBucket, hk, ih h]

theorem updateEntry_lookup_eq {l : LimiterMap} {ip : String} {v : TokenBucket}
    (h : lookupBucket l ip = some v) : updateEntry l ip v = l := by
  induction l with
  | nil => rfl
  | cons e rest ih =>
      obtain ⟨k, v'⟩ := e
      by_cases hk : k = ip
      · simp only [lookupBucket, if_pos hk] at h
        simp only [updateEntry, if_pos hk]
        rw [Option.some.inj h]
      · simp only [lookupBucket, if_neg hk] at h
        simp [updateEntry, if_neg hk, ih h]

theorem length_updateEntry (l : LimiterMap) (ip : String) (b : TokenBucket) :
    (updateEntry l ip b).length = l.length := by
  induction l with
  | nil => rfl
  | cons e rest ih =>
      obtain ⟨k, v⟩ := e
      by_cases hk : k = ip
      · simp [updateEntry, if_pos hk]
      · simp [updateEntry, if_neg hk, ih]

theorem mem_updateEntry {l : LimiterMap} {ip : String} {b : TokenBucket} {e : String × TokenBucket}
    (h : e ∈ updateEntry l ip b) : e ∈ l ∨ e = (ip, b) := by
  induction l with
  | nil => simp [updateEntry] at h
  | cons hd rest ih =>
      obtain ⟨k, v⟩ := hd
      by_cases hk : k = ip
      · subst hk
        simp only [updateEntry, if_pos rfl] at h
        rcases List.mem_cons.mp h with h1 | h2
        · exact Or.inr h1
        · exact Or.inl (List.mem_cons_of_mem _ h2)
      · simp only [updateEntry, if_neg hk] at h
        rcases List.mem_cons.mp h with h1 | h2
        · exact Or.inl (h1 ▸ List.mem_cons_self _ _)
        · rcases ih h2 with h3 | h3
          · exact Or.inl (List.mem_cons_of_mem _ h3)
          · exact Or.inr h3

theorem lookupBucket_mem {l : LimiterMap} {ip : String} {v : TokenBucket}
    (h : lookupBucket l ip = some v) : (ip, v) ∈ l := by
  induction l with
  | nil => simp [lookupBucket] at h
  | cons e rest ih =>
      obtain ⟨k, v'⟩ := e
      by_cases hk : k = ip
      · simp only [lookupBucket, if_pos hk] at h
        subst hk
        simp only [Option.some.injEq] at h
        exact h ▸ List.mem_cons_self _ _
      · simp only [lookupBucket, if_neg hk] at h
        exact List.mem_cons_of_mem _ (ih h)

/-! ### Structural lemmas about the admission step -/

theorem allowIP_of_lookup_some {rl : IPRateLimiter} {ip : String} {bkt : TokenBucket} (now : ℚ)
    (h : lookupBucket rl.limiters ip = some bkt) :
    allowIP rl ip now =
      ((allowBucket { refillRate := rl.rate, burst := rl.burst } bkt now).1,
       { rl with limiters :=
           updateEntry rl.limiters ip (allowBucket { refillRate := rl.rate, burst := rl.burst } bkt now).2 }) := by
  simp [allowIP, GetLimiter, h]

theorem allowIP_of_lookup_none {rl : IPRateLimiter} {ip : String} (now : ℚ)
    (h : lookupBucket rl.limiters ip = none) :
    allowIP rl ip now =
      ((allowBucket { refillRate := rl.rate, burst := rl.burst }
          { tokens := (rl.burst : ℚ), lastRefill := now } now).1,
       { rl with limiters :=
           (ip, (allowBucket { refillRate := rl.rate, burst := rl.burst }
                   { tokens := (rl.burst : ℚ), lastRefill := now } now).2) :: rl.limiters }) := by
  simp [allowIP, GetLimiter, h, updateEntry]

theorem allowBucket_reject {p : RateLimitPolicy} {b : TokenBucket} {now : ℚ}
    (h : (allowBucket p b now).1 = false) : (allowBucket p b now).2 = b := by
  by_cases hc : 1 ≤ refillTokens p b now
  · simp [allowBucket, hc] at h
  · simp [allowBucket, hc]

theorem refillTokens_same_instant {p : RateLimitPolicy} {k : ℚ} (t : ℚ)
    (hk : k ≤ (p.burst : ℚ)) :
    refillTokens p { tokens := k, lastRefill := t } t = k := by
  rw [refillTokens_eq_min]
  simp only [sub_self, zero_mul, add_zero]
  exact min_eq_right hk

theorem allowBucket_same_instant {p : RateLimitPolicy} {k : ℚ} (t : ℚ)
    (hk : k ≤ (p.burst : ℚ)) :
    allowBucket p { tokens := k, lastRefill := t } t =
      if 1 ≤ k then (true, { tokens := k - 1, lastRefill := t })
      else (false, { tokens := k, lastRefill := t }) := by
  simp only [allowBucket, refillTokens_same_instant t hk]

theorem allowIP_rate (rl : IPRateLimiter) (ip : String) (now : ℚ) :
    (allowIP rl ip now).2.rate = rl.rate := by
  cases h : lookupBucket rl.limiters ip
  · rw [allowIP_of_lookup_none now h]
  · rw [allowIP_of_lookup_some now h]

theorem allowIP_burst (rl : IPRateLimiter) (ip : String) (now : ℚ) :
    (allowIP rl ip now).2.burst = rl.burst := by
  cases h : lookupBucket rl.limiters ip
  · rw [allowIP_of_lookup_none now h]
  · rw [allowIP_of_lookup_some now h]

theorem lookupBucket_GetLimiter_ne {rl : IPRateLimiter} {A B : String} (now : ℚ) (h : B ≠ A) :
    lookupBucket (GetLimiter rl A now).2.limiters B = lookupBucket rl.limiters B := by
  cases hl : lookupBucket rl.limiters A
  · simp [GetLimiter, hl, lookupBucket, Ne.symm h]
  · simp [GetLimiter, hl]

theorem lookupBucket_allowIP_ne {rl : IPRateLimiter} {A B : String} (now : ℚ) (h : B ≠ A) :
    lookupBucket (allowIP rl A now).2.limiters B = lookupBucket rl.limiters B := by
  cases hl : lookupBucket rl.limiters A
  · rw [allowIP_of_lookup_none now hl]
    simp [lookupBucket, Ne.symm h]
  · rw [allowIP_of_lookup_some now hl]
    exact lookupBucket_updateEntry_ne _ h

theorem eta_limiters (rl : IPRateLimiter) :
    ({ rl with limiters := rl.limiters } : IPRateLimiter) = rl := rfl

theorem allowIP_reject_of_some {rl : IPRateLimiter} {ip : String} {bkt : TokenBucket} (now : ℚ)
    (h : lookupBucket rl.limiters ip = some bkt) (hf : (allowIP rl ip now).1 = false) :
    (allowIP rl ip now).2 = rl := by
  rw [allowIP_of_lookup_some now h] at hf ⊢
  simp only at hf
  rw [allowBucket_reject hf, updateEntry_lookup_eq h]

theorem lookupBucket_allowIP_self_of_some {rl : IPRateLimiter} {ip : String} {bkt : TokenBucket}
    (now : ℚ) (h : lookupBucket rl.limiters ip = some bkt) :
    lookupBucket (allowIP rl ip now).2.limiters ip =
      some (allowBucket { refillRate := rl.rate, burst := rl.burst } bkt now).2 := by
  rw [allowIP_of_lookup_some now h]
  exact lookupBucket_updateEntry_self _ h

theorem lookupBucket_allowIP_self_of_none {rl : IPRateLimiter} {ip : String} (now : ℚ)
    (h : lookupBucket rl.limiters ip = none) :
    lookupBucket (allowIP rl ip now).2.limiters ip =
      some (allowBucket { refillRate := rl.rate, burst := rl.burst }
              { tokens := (rl.burst : ℚ), lastRefill := now } now).2 := by
  rw [allowIP_of_lookup_none now h]
  simp [lookupBucket]

theorem allowIP_length_of_some {rl : IPRateLimiter} {ip : String} {bkt : TokenBucket} (now : ℚ)
    (h : lookupBucket rl.limiters ip = some bkt) :
    (allowIP rl ip now).2.limiters.length = rl.limiters.length := by
  rw [allowIP_of_lookup_some now h]
  exact length_updateEntry _ _ _

theorem allowIP_length_of_none {rl : IPRateLimiter} {ip : String} (now : ℚ)
    (h : lookupBucket rl.limiters ip = none) :
    (allowIP rl ip now).2.limiters.length = rl.limiters.length + 1 := by
  rw [allowIP_of_lookup_none now h]
  simp

theorem allowIP_fst_congr (rl₁ rl₂ : IPRateLimiter) (ip : String) (now : ℚ)
    (hl : lookupBucket rl₁.limiters ip = lookupBucket rl₂.limiters ip)
    (hr : rl₁.rate = rl₂.rate) (hb : rl₁.burst = rl₂.burst) :
    (allowIP rl₁ ip now).1 = (allowIP rl₂ ip now).1 := by
  cases h : lookupBucket rl₂.limiters ip
  · rw [allowIP_of_lookup_none now (hl.trans h), allowIP_of_lookup_none now h, hr, hb]
  · rw [allowIP_of_lookup_some now (hl.trans h), allowIP_of_lookup_some now h, hr, hb]

/-! ### The claims -/

/-- C1: for every registry state holding a bucket for `ip`, the admission
check behaves as the classic token-bucket step: it admits exactly when the
token count raised to `min(burst, tokens + elapsed_seconds * rate)` is at
least one, and on admission the stored bucket becomes that refilled count
minus one, stamped with the current time. -/
theorem allowIP_classic_token_bucket_step (rl : IPRateLimiter) (ip : String) (now : ℚ)
    (bkt : TokenBucket) (h : lookupBucket rl.limiters ip = some bkt) :
    (allowIP rl ip now).1
        = decide (1 ≤ min ((rl.burst : ℚ)) (bkt.tokens + (now - bkt.lastRefill) * rl.rate))
      ∧ (1 ≤ min ((rl.burst : ℚ)) (bkt.tokens + (now - bkt.lastRefill) * rl.rate) →
          lookupBucket (allowIP rl ip now).2.limiters ip
            = some { tokens := min ((rl.burst : ℚ)) (bkt.tokens + (now - bkt.lastRefill) * rl.rate) - 1,
                     lastRefill := now }) := by
  have hmin : refillTokens { refillRate := rl.rate, burst := rl.burst } bkt now
      = min ((rl.burst : ℚ)) (bkt.tokens + (now - bkt.lastRefill) * rl.rate) :=
    refillTokens_eq_min _ _ _
  constructor
  · rw [allowIP_of_lookup_some now h, ← hmin]
    by_cases hc : 1 ≤ refillTokens { refillRate := rl.rate, burst := rl.burst } bkt now
    · simp [allowBucket, hc]
    · simp [allowBucket, hc]
  · intro hc
    rw [← hmin] at hc
    rw [← hmin, lookupBucket_allowIP_self_of_some now h]
    simp [allowBucket, hc]

/-- C1 witness: concrete registry holding bucket (tokens 5, last refill 0)
under rate 1, burst 10, checked at time 2. -/
theorem allowIP_classic_token_bucket_step_witness :
    (allowIP { limiters := [("a", { tokens := 5, lastRefill := 0 })], rate := 1, burst := 10 } "a" 2).1
        = decide (1 ≤ min (((10 : ℕ) : ℚ)) (5 + (2 - 0) * 1))
      ∧ (1 ≤ min (((10 : ℕ) : ℚ)) (5 + (2 - 0) * 1) →
          lookupBucket
              (allowIP { limiters := [("a", { tokens := 5, lastRefill := 0 })], rate := 1, burst := 10 } "a" 2).2.limiters
              "a"
            = some { tokens := min (((10 : ℕ) : ℚ)) (5 + (2 - 0) * 1) - 1, lastRefill := 2 }) :=
  allowIP_classic_token_bucket_step
    { limiters := [("a", { tokens := 5, lastRefill := 0 })], rate := 1, burst := 10 }
    "a" 2 { tokens := 5, lastRefill := 0 } (by decide)

/-- C4: a rejected admission check on an existing bucket leaves the whole
registry value unchanged — the bucket's token count and last-refill
timestamp, and every other entry. -/
theorem allowIP_reject_leaves_registry_unchanged (rl : IPRateLimiter) (ip : String) (now : ℚ)
    (bkt : TokenBucket) (h : lookupBucket rl.limiters ip = some bkt)
    (hf : (allowIP rl ip now).1 = false) :
    (allowIP rl ip now).2 = rl :=
  allowIP_reject_of_some now h hf

/-- C4 witness: a drained bucket (0 tokens) checked with no elapsed time is
rejected and the registry is unchanged. -/
theorem allowIP_reject_leaves_registry_unchanged_witness :
    (allowIP { limiters := [("a", { tokens := 0, lastRefill := 0 })], rate := 1, burst := 10 } "a" 0).2
      = { limiters := [("a", { tokens := 0, lastRefill := 0 })], rate := 1, burst := 10 } :=
  allowIP_reject_leaves_registry_unchanged
    { limiters := [("a", { tokens := 0, lastRefill := 0 })], rate := 1, burst := 10 }
    "a" 0 { tokens := 0, lastRefill := 0 } (by decide)
    (by norm_num [allowIP, GetLimiter, lookupBucket, allowBucket, refillTokens])

/-- C8: for distinct IPs `A ≠ B`, both `GetLimiter A` and the admission
check for `A` leave `B`'s registry entry (existence, token count, last
refill) unchanged, and the outcome of the next admission check for `B` is
the same as if `A`'s check had not happened. -/
theorem distinct_ip_frame (rl : IPRateLimiter) (A B : String) (hne : A ≠ B) (now t : ℚ) :
    lookupBucket (GetLimiter rl A now).2.limiters B = lookupBucket rl.limiters B
      ∧ lookupBucket (allowIP rl A now).2.limiters B = lookupBucket rl.limiters B
      ∧ (allowIP (allowIP rl A now).2 B t).1 = (allowIP rl B t).1 := by
  refine ⟨lookupBucket_GetLimiter_ne now (Ne.symm hne),
          lookupBucket_allowIP_ne now (Ne.symm hne), ?_⟩
  exact allowIP_fst_congr _ _ B t (lookupBucket_allowIP_ne now (Ne.symm hne))
    (allowIP_rate rl A now) (allowIP_burst rl A now)

/-- C8 witness: IPs "a" and "b" on a fresh registry with rate 1, burst 10,
all at time 0. -/
theorem distinct_ip_frame_witness :
    lookupBucket (GetLimiter (NewIPRateLimiter 1 10) "a" 0).2.limiters "b"
        = lookupBucket (NewIPRateLimiter 1 10).limiters "b"
      ∧ lookupBucket (allowIP (NewIPRateLimiter 1 10) "a" 0).2.limiters "b"
          = lookupBucket (NewIPRateLimiter 1 10).limiters "b"
      ∧ (allowIP (allowIP (NewIPRateLimiter 1 10) "a" 0).2 "b" 0).1
          = (allowIP (NewIPRateLimiter 1 10) "b" 0).1 :=
  distinct_ip_frame (NewIPRateLimiter 1 10) "a" "b" (by decide) 0 0

theorem allowRun_counter (n : ℕ) :
    ∀ (rl : IPRateLimiter) (ip : String) (now : ℚ) (k : ℕ),
      lookupBucket rl.limiters ip = some { tokens := (k : ℚ), lastRefill := now } →
      k ≤ rl.burst →
      allowRun rl ip now n = List.replicate (min n k) true ++ List.replicate (n - k) false := by
  induction n with
  | zero => intro rl ip now k h hk; simp [allowRun]
  | succ n ih =>
      intro rl ip now k h hk
      have hcast : ((k : ℚ)) ≤ ((rl.burst : ℚ)) := Nat.cast_le.mpr hk
      have hb := allowBucket_same_instant
        (p := { refillRate := rl.rate, burst := rl.burst }) now hcast
      cases k with
      | zero =>
          have hcond : ¬ ((1 : ℚ) ≤ (((0 : ℕ) : ℚ))) := by norm_num
          rw [if_neg hcond] at hb
          have hfalse : (allowIP rl ip now).1 = false := by
            rw [allowIP_of_lookup_some now h, hb]
          have hsame : (allowIP rl ip now).2 = rl := allowIP_reject_of_some now h hfalse
          simp only [allowRun, hfalse, hsame, ih rl ip now 0 h hk]
          simp only [Nat.min_zero, Nat.sub_zero, List.replicate, List.nil_append]
      | succ j =>
          have hcond : (1 : ℚ) ≤ (((j + 1 : ℕ) : ℚ)) := by
            exact_mod_cast Nat.one_le_cast.mpr (Nat.succ_le_succ (Nat.zero_le j))
          rw [if_pos hcond] at hb
          have hsub : (((j + 1 : ℕ) : ℚ)) - 1 = ((j : ℕ) : ℚ) := by push_cast; ring
          have htrue : (allowIP rl ip now).1 = true := by
            rw [allowIP_of_lookup_some now h, hb]
          have hreg : (allowIP rl ip now).2
              = { rl with limiters :=
                    updateEntry rl.limiters ip { tokens := ((j : ℕ) : ℚ), lastRefill := now } } := by
            rw [allowIP_of_lookup_some now h, hb]
            simp [hsub]
          have hlook2 : lookupBucket (allowIP rl ip now).2.limiters ip
              = some { tokens := ((j : ℕ) : ℚ), lastRefill := now } := by
            rw [hreg]
            exact lookupBucket_updateEntry_self _ h
          have hburst2 : (allowIP rl ip now).2.burst = rl.burst := allowIP_burst rl ip now
          have hk2 : j ≤ (allowIP rl ip now).2.burst := by
            rw [hburst2]; omega
          have ih2 := ih (allowIP rl ip now).2 ip now j hlook2 hk2
          simp only [allowRun, htrue, ih2]
          rw [Nat.succ_min_succ, Nat.succ_sub_succ]
          simp [List.replicate_succ]

/-- C2: a bucket created on an IP's first request is initialized to full
burst capacity `B`: with no elapsed time, `B` consecutive admission checks
for that IP all admit, and the `(B+1)`-th rejects. -/
theorem fresh_bucket_burst_exhaustion (B : ℕ) (hB : 1 ≤ B) (rl : IPRateLimiter) (ip : String)
    (now : ℚ) (hfresh : lookupBucket rl.limiters ip = none) (hburst : rl.burst = B) :
    lookupBucket (GetLimiter rl ip now).2.limiters ip
        = some { tokens := (B : ℚ), lastRefill := now }
      ∧ allowRun rl ip now (B + 1) = List.replicate B true ++ [false] := by
  constructor
  · simp [GetLimiter, hfresh, lookupBucket, hburst]
  · have hcond : (1 : ℚ) ≤ ((rl.burst : ℚ)) := by
      rw [hburst]; exact_mod_cast hB
    have hb := allowBucket_same_instant
      (p := { refillRate := rl.rate, burst := rl.burst }) now (le_refl ((rl.burst : ℚ)))
    rw [if_pos hcond] at hb
    have hsub : ((rl.burst : ℚ)) - 1 = (((B - 1 : ℕ) : ℚ)) := by
      rw [hburst, Nat.cast_sub hB, Nat.cast_one]
    have htrue : (allowIP rl ip now).1 = true := by
      rw [allowIP_of_lookup_none now hfresh, hb]
    have hreg : (allowIP rl ip now).2
        = { rl with limiters :=
              (ip, { tokens := (((B - 1 : ℕ) : ℚ)), lastRefill := now }) :: rl.limiters } := by
      rw [allowIP_of_lookup_none now hfresh, hb]
      simp [hsub]
    have hlook2 : lookupBucket (allowIP rl ip now).2.limiters ip
        = some { tokens := (((B - 1 : ℕ) : ℚ)), lastRefill := now } := by
      rw [hreg]
      simp [lookupBucket]
    have hk2 : B - 1 ≤ (allowIP rl ip now).2.burst := by
      rw [allowIP_burst rl ip now, hburst]; omega
    have hrun := allowRun_counter B (allowIP rl ip now).2 ip now (B - 1) hlook2 hk2
    have hmin : min B (B - 1) = B - 1 := min_eq_right (Nat.sub_le B 1)
    have hsub2 : B - (B - 1) = 1 := by omega
    have hrep : B = (B - 1) + 1 := by omega
    simp only [allowRun, htrue, hrun, hmin, hsub2]
    rw [hrep]
    simp [List.replicate_succ]

/-- C2 witness: burst 2, fresh registry, IP "a", all checks at time 0:
the first two admission checks admit and the third rejects. -/
theorem fresh_bucket_burst_exhaustion_witness :
    lookupBucket (GetLimiter (NewIPRateLimiter 1 2) "a" 0).2.limiters "a"
        = some { tokens := ((2 : ℕ) : ℚ), lastRefill := 0 }
      ∧ allowRun (NewIPRateLimiter 1 2) "a" 0 (2 + 1) = List.replicate 2 true ++ [false] :=
  fresh_bucket_burst_exhaustion 2 (by decide) (NewIPRateLimiter 1 2) "a" 0 rfl rfl

/-! ### Reachability and the token-range invariant -/

theorem refillTokens_le_burst (p : RateLimitPolicy) (b : TokenBucket) (now : ℚ) :
    refillTokens p b now ≤ ((p.burst : ℚ)) := by
  rw [refillTokens_eq_min]
  exact min_le_left _ _

theorem allowBucket_snd_range {p : RateLimitPolicy} {b : TokenBucket} (now : ℚ)
    (h0 : 0 ≤ b.tokens) (hb : b.tokens ≤ ((p.burst : ℚ))) :
    0 ≤ (allowBucket p b now).2.tokens ∧ (allowBucket p b now).2.tokens ≤ ((p.burst : ℚ)) := by
  by_cases hc : 1 ≤ refillTokens p b now
  · simp only [allowBucket, if_pos hc]
    have hle := refillTokens_le_burst p b now
    constructor
    · show 0 ≤ refillTokens p b now - 1
      linarith
    · show refillTokens p b now - 1 ≤ ((p.burst : ℚ))
      linarith
  · simp only [allowBucket, if_neg hc]
    exact ⟨h0, hb⟩

theorem GetLimiter_burst (rl : IPRateLimiter) (ip : String) (now : ℚ) :
    (GetLimiter rl ip now).2.burst = rl.burst := by
  cases h : lookupBucket rl.limiters ip <;> simp [GetLimiter, h]

/-- All buckets stored in the registry hold between 0 and `burst` tokens. -/
def BucketsInRange (rl : IPRateLimiter) : Prop :=
  ∀ e ∈ rl.limiters, 0 ≤ e.2.tokens ∧ e.2.tokens ≤ ((rl.burst : ℚ))

theorem bucketsInRange_GetLimiter {rl : IPRateLimiter} (ip : String) (now : ℚ)
    (h : BucketsInRange rl) : BucketsInRange (GetLimiter rl ip now).2 := by
  cases hl : lookupBucket rl.limiters ip with
  | some bkt => simpa [GetLimiter, hl] using h
  | none =>
      intro e he
      rw [GetLimiter_burst]
      simp only [GetLimiter, hl, List.mem_cons] at he
      rcases he with he | he
      · subst he
        exact ⟨Nat.cast_nonneg _, le_refl _⟩
      · exact h e he

theorem bucketsInRange_allowIP {rl : IPRateLimiter} (ip : String) (now : ℚ)
    (h : BucketsInRange rl) : BucketsInRange (allowIP rl ip now).2 := by
  cases hl : lookupBucket rl.limiters ip with
  | some bkt =>
      intro e he
      rw [allowIP_of_lookup_some now hl] at he
      simp only at he
      rw [allowIP_burst]
      rcases mem_updateEntry he with h1 | h1
      · exact h e h1
      · subst h1
        exact allowBucket_snd_range now (h _ (lookupBucket_mem hl)).1
          (h _ (lookupBucket_mem hl)).2
  | none =>
      intro e he
      rw [allowIP_of_lookup_none now hl] at he
      simp only [List.mem_cons] at he
      rw [allowIP_burst]
      rcases he with he | he
      · subst he
        exact allowBucket_snd_range now (Nat.cast_nonneg _) (le_refl _)
      · exact h e he

theorem bucketsInRange_CleanupOldLimiters {rl : IPRateLimiter}
    (h : BucketsInRange rl) : BucketsInRange (CleanupOldLimiters rl) := by
  by_cases hc : rl.limiters.length > 1000
  · intro e he
    simp only [CleanupOldLimiters, if_pos hc] at he ⊢
    exact h e (List.drop_subset _ _ he)
  · simpa [CleanupOldLimiters, hc] using h

/-- The registry states reachable from construction by the operations of the
component: bucket lookup-or-create, admission checks, and cleanup. -/
inductive Reachable : IPRateLimiter → Prop where
  | new : ∀ (rps : ℚ) (burst : ℕ), Reachable (NewIPRateLimiter rps burst)
  | get : ∀ {rl : IPRateLimiter} (ip : String) (now : ℚ),
      Reachable rl → Reachable (GetLimiter rl ip now).2
  | allow : ∀ {rl : IPRateLimiter} (ip : String) (now : ℚ),
      Reachable rl → Reachable (allowIP rl ip now).2
  | cleanup : ∀ {rl : IPRateLimiter}, Reachable rl → Reachable (CleanupOldLimiters rl)

theorem reachable_bucketsInRange {rl : IPRateLimiter} (h : Reachable rl) :
    BucketsInRange rl := by
  induction h with
  | new rps burst => intro e he; simp [NewIPRateLimiter] at he
  | get ip now _ ih => exact bucketsInRange_GetLimiter ip now ih
  | allow ip now _ ih => exact bucketsInRange_allowIP ip now ih
  | cleanup _ ih => exact bucketsInRange_CleanupOldLimiters ih

/-- C3: in every reachable registry state — i.e. after any sequence of
lookup-or-create, admission-check and cleanup operations — every stored
bucket's token count lies in `[0, burst]`; in particular tokens never
accumulate beyond the burst capacity however long the bucket sat idle. -/
theorem reachable_tokens_in_range (rl : IPRateLimiter) (h : Reachable rl) (ip : String)
    (bkt : TokenBucket) (hl : lookupBucket rl.limiters ip = some bkt) :
    0 ≤ bkt.tokens ∧ bkt.tokens ≤ ((rl.burst : ℚ)) :=
  reachable_bucketsInRange h (ip, bkt) (lookupBucket_mem hl)

/-- C3 witness: after one admission check on a fresh registry (rate 1,
burst 10), the stored bucket holds 9 tokens, which is within `[0, 10]`. -/
theorem reachable_tokens_in_range_witness :
    0 ≤ (({ tokens := 9, lastRefill := 0 } : TokenBucket)).tokens
      ∧ (({ tokens := 9, lastRefill := 0 } : TokenBucket)).tokens
          ≤ (((allowIP (NewIPRateLimiter 1 10) "a" 0).2.burst : ℚ)) :=
  reachable_tokens_in_range (allowIP (NewIPRateLimiter 1 10) "a" 0).2
    (Reachable.allow "a" 0 (Reachable.new 1 10)) "a" { tokens := 9, lastRefill := 0 }
    (by norm_num [allowIP, GetLimiter, NewIPRateLimiter, lookupBucket, allowBucket,
      refillTokens, updateEntry])

/-! ### Cleanup behaviour -/

/-- An IP string of length `n` (distinct lengths give distinct IPs); used to
build concrete registries and request streams. -/
def ipOfNat (n : ℕ) : String :=
  String.mk (List.replicate n 'a')

/-- A registry of `n` distinct entries under the general policy, for
evaluating the cleanup routine on concrete sizes. -/
def mkRegistry (n : ℕ) : IPRateLimiter :=
  { limiters := (List.range n).map (fun i => (ipOfNat i, { tokens := 1, lastRefill := 0 })),
    rate := 1, burst := 10 }

theorem mkRegistry_length (n : ℕ) : (mkRegistry n).limiters.length = n := by
  simp [mkRegistry]

/-- C5 counterexample: a registry of 2000 entries exceeds the 1000-entry
threshold, yet a single cleanup leaves 1499 entries — not below the
threshold. -/
theorem cleanup_not_below_threshold_at_2000 :
    (mkRegistry 2000).limiters.length > 1000
      ∧ ¬ ((CleanupOldLimiters (mkRegistry 2000)).limiters.length < 1000) := by
  have hlen : (mkRegistry 2000).limiters.length = 2000 := mkRegistry_length 2000
  have hgt : (mkRegistry 2000).limiters.length > 1000 := by omega
  refine ⟨hgt, ?_⟩
  simp only [CleanupOldLimiters]
  rw [if_pos hgt]
  simp only [List.length_drop, hlen]
  omega

/-- C5 amended: when the registry exceeds the 1000-entry threshold, one
cleanup invocation removes exactly 501 entries (hence drops below the
threshold only from sizes up to 1501). -/
theorem cleanup_removes_501 (rl : IPRateLimiter) (h : rl.limiters.length > 1000) :
    (CleanupOldLimiters rl).limiters.length = rl.limiters.length - 501 := by
  simp only [CleanupOldLimiters, if_pos h, List.length_drop]

/-- C5 amended witness: from 1001 entries one cleanup leaves 500. -/
theorem cleanup_removes_501_witness :
    (CleanupOldLimiters (mkRegistry 1001)).limiters.length
      = (mkRegistry 1001).limiters.length - 501 :=
  cleanup_removes_501 (mkRegistry 1001) (by simp [mkRegistry])

/-- C10: a cleanup invocation on a registry of at most 1000 entries is a
complete no-op — no entry is removed and no bucket state changes. -/
theorem cleanup_noop_at_or_below_threshold (rl : IPRateLimiter)
    (h : rl.limiters.length ≤ 1000) : CleanupOldLimiters rl = rl := by
  have hc : ¬ (rl.limiters.length > 1000) := by omega
  simp [CleanupOldLimiters, hc]

/-- C10 witness: cleanup leaves a 3-entry registry untouched. -/
theorem cleanup_noop_at_or_below_threshold_witness :
    CleanupOldLimiters (mkRegistry 3) = mkRegistry 3 :=
  cleanup_noop_at_or_below_threshold (mkRegistry 3) (by simp [mkRegistry])

/-! ### The request-handling step relation of the middleware

Each request handled by the `RateLimit` middleware performs exactly one
admission step (`GetLimiter` followed by `Allow`) on the package-level
registry.  No code path in the repository ever invokes
`CleanupOldLimiters`: it is defined but has no caller, so the registry
evolves by admission steps alone. -/

/-- The package-level registry used by `RateLimit()`:
`NewIPRateLimiter(rate.Every(time.Second), 10)`, i.e. one token per second
with burst 10. -/
def globalRateLimiter : IPRateLimiter :=
  NewIPRateLimiter 1 10

/-- Registry evolution across a stream of requests (client IPs), each
handled by the `RateLimit` middleware at the given instant. -/
def processRequests : List String → ℚ → IPRateLimiter → IPRateLimiter
  | [], _, rl => rl
  | ip :: rest, now, rl => processRequests rest now (allowIP rl ip now).2

/-- The first `n` distinct client IPs. -/
def distinctIPs (n : ℕ) : List String :=
  (List.range n).map ipOfNat

theorem ipOfNat_injective : Function.Injective ipOfNat := by
  intro m n h
  have hdata : (List.replicate m 'a').length = (List.replicate n 'a').length := by
    rw [show List.replicate m 'a' = (ipOfNat m).data from rfl,
        show List.replicate n 'a' = (ipOfNat n).data from rfl, h]
  simpa using hdata

theorem distinctIPs_nodup (n : ℕ) : (distinctIPs n).Nodup :=
  (List.nodup_range n).map ipOfNat_injective

theorem processRequests_length (ips : List String) :
    ∀ (rl : IPRateLimiter) (now : ℚ), ips.Nodup →
      (∀ ip ∈ ips, lookupBucket rl.limiters ip = none) →
      (processRequests ips now rl).limiters.length = rl.limiters.length + ips.length := by
  induction ips with
  | nil => intro rl now _ _; simp [processRequests]
  | cons ip rest ih =>
      intro rl now hnodup hfresh
      have hip : lookupBucket rl.limiters ip = none := hfresh ip (List.mem_cons_self _ _)
      have hrest : ∀ q ∈ rest, lookupBucket (allowIP rl ip now).2.limiters q = none := by
        intro q hq
        have hne : q ≠ ip := by
          intro hqe
          subst hqe
          exact (List.nodup_cons.mp hnodup).1 hq
        rw [lookupBucket_allowIP_ne now hne]
        exact hfresh q (List.mem_cons_of_mem _ hq)
      have hlen := allowIP_length_of_none now hip
      have := ih (allowIP rl ip now).2 now (List.nodup_cons.mp hnodup).2 hrest
      simp only [processRequests, this, hlen, List.length_cons]
      omega

/-- C6 refutation: the request path never triggers cleanup, so the
registry's size is unbounded over the process lifetime — after `n` requests
from `n` distinct IPs the package-level registry holds exactly `n` entries,
for every `n` (in particular it passes the 1000-entry cleanup threshold and
keeps growing). -/
theorem registry_grows_without_bound (n : ℕ) :
    (processRequests (distinctIPs n) 0 globalRateLimiter).limiters.length = n := by
  have := processRequests_length (distinctIPs n) globalRateLimiter 0 (distinctIPs_nodup n)
    (fun ip _ => rfl)
  simpa [distinctIPs, globalRateLimiter, NewIPRateLimiter] using this

/-! ### HTTP rejection responses (`pkg/response` and the middleware) -/

/-- Source `APIError` of `pkg/response/response.go`: code, message, details. -/
structure APIError where
  code : String
  message : String
  details : String
  deriving DecidableEq

/-- Source `APIResponse` of `pkg/response/response.go`; the `Data interface{}`
payload is abstracted to its presence (it is always absent on the error
path modelled here). -/
structure APIResponse where
  success : Bool
  message : Option String
  data : Option Unit
  error : Option APIError
  deriving DecidableEq

/-- Constant `http.StatusTooManyRequests`. -/
def StatusTooManyRequests : ℕ := 429

/-- Source `ErrorResponse`: status code paired with a body carrying
`Success: false` and the structured error (message and data unset). -/
def ErrorResponse (statusCode : ℕ) (code message details : String) : ℕ × APIResponse :=
  (statusCode,
   { success := false, message := none, data := none,
     error := some { code := code, message := message, details := details } })

/-- The response `RateLimit` (and `RateLimitWithConfig`) emits on a rejected
request. -/
def rateLimitRejectResponse : ℕ × APIResponse :=
  ErrorResponse StatusTooManyRequests "RATE_LIMIT_EXCEEDED" "Rate limit exceeded"
    "Too many requests from your IP address"

/-- The response `AuthRateLimit` emits on a rejected request. -/
def authRateLimitRejectResponse : ℕ × APIResponse :=
  ErrorResponse StatusTooManyRequests "AUTH_RATE_LIMIT_EXCEEDED"
    "Authentication rate limit exceeded" "Too many authentication attempts from your IP address"

/-- The single rejection body the spec claims both policies emit (written
from the spec's JSON, for comparison with the bodies the middleware
builds). -/
def specClaimedRejectBody : APIResponse :=
  { success := false, message := none, data := none,
    error := some { code := "RATE_LIMIT_EXCEEDED", message := "Rate limit exceeded",
                    details := "Too many requests from your IP address" } }

/-- C7 counterexample: the auth-policy rejection is a 429 but its body is
not the body the claim prescribes (different code, message and details). -/
theorem auth_reject_body_differs :
    authRateLimitRejectResponse.1 = 429
      ∧ authRateLimitRejectResponse.2 ≠ specClaimedRejectBody := by
  constructor
  · rfl
  · decide

/-- C7 amended: both policies respond 429 on rejection; the general policy
emits exactly the claimed body, while the auth policy emits the analogous
body with code `AUTH_RATE_LIMIT_EXCEEDED`, message "Authentication rate
limit exceeded" and details "Too many authentication attempts from your IP
address". -/
theorem reject_responses_status_and_bodies :
    rateLimitRejectResponse = (429, specClaimedRejectBody)
      ∧ authRateLimitRejectResponse
          = (429,
             { success := false, message := none, data := none,
               error := some { code := "AUTH_RATE_LIMIT_EXCEEDED",
                               message := "Authentication rate limit exceeded",
                               details := "Too many authentication attempts from your IP address" } }) :=
  ⟨rfl, rfl⟩

/-! ### Limiter instances in the running system (`internal/routes/routes.go`) -/

/-- The policy of the package-level `globalRateLimiter`:
`rate.Every(time.Second)` is one token per second, burst 10. -/
def globalRateLimiterPolicy : RateLimitPolicy :=
  { refillRate := 1, burst := 10 }

/-- The policy of each registry allocated by `AuthRateLimit()`:
`rate.Every(time.Minute)` is one token per 60 seconds, burst 5. -/
def authRateLimiterPolicy : RateLimitPolicy :=
  { refillRate := 1 / 60, burst := 5 }

/-- The limiter-registry instances alive in the running system, in
allocation order, read off the source: the package-level
`globalRateLimiter` reused by every `RateLimit()` middleware, plus one
fresh `IPRateLimiter` allocated by each of the three `AuthRateLimit()`
calls in `RegisterAPIRoutes` — the `/api/auth` group's `Use`, the legacy
`/api/register` route, and the legacy `/api/login` route. -/
def systemLimiterInstances : List RateLimitPolicy :=
  [globalRateLimiterPolicy, authRateLimiterPolicy, authRateLimiterPolicy, authRateLimiterPolicy]

/-- C9 counterexample: the running system does not hold exactly two limiter
registries. -/
theorem system_instances_not_two : systemLimiterInstances.length ≠ 2 := by
  decide

/-- C9 amended: the system holds four limiter registries — one under the
general policy and three independent ones under the stricter auth policy
(one per `AuthRateLimit()` call site), the two policies being distinct. -/
theorem system_instances_one_general_three_auth :
    systemLimiterInstances.length = 4
      ∧ systemLimiterInstances.head? = some globalRateLimiterPolicy
      ∧ systemLimiterInstances.tail = List.replicate 3 authRateLimiterPolicy
      ∧ globalRateLimiterPolicy ≠ authRateLimiterPolicy := by
  refine ⟨rfl, rfl, rfl, ?_⟩
  intro h
  exact absurd (congrArg RateLimitPolicy.burst h) (by decide)

end GinTemplate
